import Mathlib

/-!
Shallow embedding of `scripts/validate.py`, the plugin/marketplace
validation engine of the Agentic-Insights/foundry repository, together
with theorems settling the specification claims about it.

Python JSON values are embedded as `JVal`; on-disk state (file presence,
parse outcomes, subprocess outcomes) is passed explicitly as data.
-/

namespace Validate

/-- A parsed JSON value, as produced by Python's `json.load`.
Objects keep their fields as an association list. -/
inductive JVal where
  | str (s : String)
  | num (n : Int)
  | bool (b : Bool)
  | null
  | arr (elems : List JVal)
  | obj (fields : List (String × JVal))
deriving Repr

mutual

/-- Structural decidable equality for `JVal` (Python `==` on parsed JSON). -/
def decEqJVal : (a b : JVal) → Decidable (a = b)
  | .str x, .str y =>
    if h : x = y then isTrue (h ▸ rfl)
    else isFalse (fun hh => h (by injection hh))
  | .num x, .num y =>
    if h : x = y then isTrue (h ▸ rfl)
    else isFalse (fun hh => h (by injection hh))
  | .bool x, .bool y =>
    if h : x = y then isTrue (h ▸ rfl)
    else isFalse (fun hh => h (by injection hh))
  | .null, .null => isTrue rfl
  | .arr xs, .arr ys =>
    match decEqJList xs ys with
    | isTrue h => isTrue (h ▸ rfl)
    | isFalse h => isFalse (fun hh => h (by injection hh))
  | .obj fs, .obj gs =>
    match decEqJFields fs gs with
    | isTrue h => isTrue (h ▸ rfl)
    | isFalse h => isFalse (fun hh => h (by injection hh))
  | .str _, .num _ => isFalse (fun h => JVal.noConfusion h)
  | .str _, .bool _ => isFalse (fun h => JVal.noConfusion h)
  | .str _, .null => isFalse (fun h => JVal.noConfusion h)
  | .str _, .arr _ => isFalse (fun h => JVal.noConfusion h)
  | .str _, .obj _ => isFalse (fun h => JVal.noConfusion h)
  | .num _, .str _ => isFalse (fun h => JVal.noConfusion h)
  | .num _, .bool _ => isFalse (fun h => JVal.noConfusion h)
  | .num _, .null => isFalse (fun h => JVal.noConfusion h)
  | .num _, .arr _ => isFalse (fun h => JVal.noConfusion h)
  | .num _, .obj _ => isFalse (fun h => JVal.noConfusion h)
  | .bool _, .str _ => isFalse (fun h => JVal.noConfusion h)
  | .bool _, .num _ => isFalse (fun h => JVal.noConfusion h)
  | .bool _, .null => isFalse (fun h => JVal.noConfusion h)
  | .bool _, .arr _ => isFalse (fun h => JVal.noConfusion h)
  | .bool _, .obj _ => isFalse (fun h => JVal.noConfusion h)
  | .null, .str _ => isFalse (fun h => JVal.noConfusion h)
  | .null, .num _ => isFalse (fun h => JVal.noConfusion h)
  | .null, .bool _ => isFalse (fun h => JVal.noConfusion h)
  | .null, .arr _ => isFalse (fun h => JVal.noConfusion h)
  | .null, .obj _ => isFalse (fun h => JVal.noConfusion h)
  | .arr _, .str _ => isFalse (fun h => JVal.noConfusion h)
  | .arr _, .num _ => isFalse (fun h => JVal.noConfusion h)
  | .arr _, .bool _ => isFalse (fun h => JVal.noConfusion h)
  | .arr _, .null => isFalse (fun h => JVal.noConfusion h)
  | .arr _, .obj _ => isFalse (fun h => JVal.noConfusion h)
  | .obj _, .str _ => isFalse (fun h => JVal.noConfusion h)
  | .obj _, .num _ => isFalse (fun h => JVal.noConfusion h)
  | .obj _, .bool _ => isFalse (fun h => JVal.noConfusion h)
  | .obj _, .null => isFalse (fun h => JVal.noConfusion h)
  | .obj _, .arr _ => isFalse (fun h => JVal.noConfusion h)

/-- Decidable equality for lists of `JVal`. -/
def decEqJList : (as bs : List JVal) → Decidable (as = bs)
  | [], [] => isTrue rfl
  | [], _ :: _ => isFalse (fun h => List.noConfusion h)
  | _ :: _, [] => isFalse (fun h => List.noConfusion h)
  | a :: as, b :: bs =>
    match decEqJVal a b with
    | isTrue h1 =>
      match decEqJList as bs with
      | isTrue h2 => isTrue (by rw [h1, h2])
      | isFalse h2 => isFalse (by intro h; injection h; exact h2 (by assumption))
    | isFalse h1 => isFalse (by intro h; injection h; exact h1 (by assumption))

/-- Decidable equality for object field lists. -/
def decEqJFields : (fs gs : List (String × JVal)) → Decidable (fs = gs)
  | [], [] => isTrue rfl
  | [], _ :: _ => isFalse (fun h => List.noConfusion h)
  | _ :: _, [] => isFalse (fun h => List.noConfusion h)
  | (k, v) :: fs, (k', v') :: gs =>
    if hk : k = k' then
      match decEqJVal v v' with
      | isTrue hv =>
        match decEqJFields fs gs with
        | isTrue ht => isTrue (by rw [hk, hv, ht])
        | isFalse ht => isFalse (by intro h; injection h; exact ht (by assumption))
      | isFalse hv =>
        isFalse (by
          intro h
          injection h with h1 h2
          exact hv (congrArg Prod.snd h1))
    else
      isFalse (by
        intro h
        injection h with h1 h2
        exact hk (congrArg Prod.fst h1))

end

instance : DecidableEq JVal := decEqJVal

/-- Python `type(v).__name__` for a JSON value. -/
def pyTypeName : JVal → String
  | .str _ => "str"
  | .num _ => "int"
  | .bool _ => "bool"
  | .null => "NoneType"
  | .arr _ => "list"
  | .obj _ => "dict"

/-- Rendering of a value inside an f-string (`str(v)` in Python).
Container values are abbreviated: no claim inspects messages built
from non-scalar values. -/
def pyStr : JVal → String
  | .str s => s
  | .num n => toString n
  | .bool true => "True"
  | .bool false => "False"
  | .null => "None"
  | .arr _ => "list"
  | .obj _ => "dict"

/-- Source `ValidationIssue` dataclass: one recorded finding. -/
structure ValidationIssue where
  severity : String
  check : String
  message : String
  file : String
  line : Option Nat
deriving DecidableEq, Repr

/-- Source `ValidationResult` dataclass: status plus the three issue lists. -/
structure ValidationResult where
  status : String
  errors : List ValidationIssue
  warnings : List ValidationIssue
  info : List ValidationIssue
deriving DecidableEq, Repr

/-- Source `ValidationResult(status='passed')`, the state every validator starts from. -/
def freshResult : ValidationResult := ⟨"passed", [], [], []⟩

/-- Source `ValidationResult.add_error`: append the issue, then
`if self.status != 'failed': self.status = 'failed'`. -/
def ValidationResult.add_error (r : ValidationResult)
    (check message file : String) (line : Option Nat) : ValidationResult :=
  { r with
    errors := r.errors ++ [⟨"error", check, message, file, line⟩],
    status := if r.status ≠ "failed" then "failed" else r.status }

/-- Source `ValidationResult.add_warning`: append the issue, then
`if self.status == 'passed': self.status = 'warning'`. -/
def ValidationResult.add_warning (r : ValidationResult)
    (check message file : String) (line : Option Nat) : ValidationResult :=
  { r with
    warnings := r.warnings ++ [⟨"warning", check, message, file, line⟩],
    status := if r.status = "passed" then "warning" else r.status }

/-- Source `ValidationResult.add_info`: append the issue, status untouched
(the dataclass default leaves `line = None`). -/
def ValidationResult.add_info (r : ValidationResult)
    (check message file : String) : ValidationResult :=
  { r with info := r.info ++ [⟨"info", check, message, file, none⟩] }

/-- One mutation of a `ValidationResult`: the three `add_*` methods are
the only operations any validator performs on a result. -/
inductive ResOp where
  | err (check message file : String) (line : Option Nat)
  | warn (check message file : String) (line : Option Nat)
  | inf (check message file : String)
deriving DecidableEq, Repr

/-- Apply one `add_*` call. -/
def applyOp (r : ValidationResult) : ResOp → ValidationResult
  | .err c m f l => r.add_error c m f l
  | .warn c m f l => r.add_warning c m f l
  | .inf c m f => r.add_info c m f

/-- Apply a sequence of `add_*` calls. -/
def runOps (r : ValidationResult) (ops : List ResOp) : ValidationResult :=
  ops.foldl applyOp r

/-- The status/issues invariant of `ValidationResult`. -/
def StatusInv (r : ValidationResult) : Prop :=
  (r.status = "failed" ↔ r.errors ≠ []) ∧
  (r.status = "warning" ↔ (r.errors = [] ∧ r.warnings ≠ [])) ∧
  (r.status = "passed" ↔ (r.errors = [] ∧ r.warnings = []))

/-! ### Python string helpers -/

/-- Python `s.startswith(pre)`. -/
def pyStartsWith (pre s : String) : Bool := pre.data.isPrefixOf s.data

/-- Python `s.lstrip('./')`: remove ALL leading characters belonging to
the set `\x7b '.', '/' \x7d` (not the prefix `"./"`). -/
def pyLstripDotSlash (s : String) : String :=
  String.mk (s.data.dropWhile (fun c => c == '.' || c == '/'))

/-! ### The compiled regular expressions -/

def isLowerAlpha (c : Char) : Bool := 'a' ≤ c && c ≤ 'z'

def isUpperAlpha (c : Char) : Bool := 'A' ≤ c && c ≤ 'Z'

def isDigitChar (c : Char) : Bool := '0' ≤ c && c ≤ '9'

def isLowerDigit (c : Char) : Bool := isLowerAlpha c || isDigitChar c

/-- Matcher for the part of `PLUGIN_NAME_PATTERN` after the first char:
the regex fragment `[a-z0-9]*(-[a-z0-9]+)*$`.  The regex is deterministic
because `-` is not in `[a-z0-9]`, so a direct functional translation is
exact. -/
def nameTail : List Char → Bool
  | [] => true
  | c :: cs =>
    if isLowerDigit c then nameTail cs
    else if c == '-' then
      match cs with
      | [] => false
      | d :: ds => isLowerDigit d && nameTail ds
    else false

/-- Python's `$` (without `re.MULTILINE`) matches at the end of the
string or just before one final newline.  Since `'\n'` belongs to no
character class of either compiled pattern, a pattern anchored with `$`
accepts a string exactly when its strict core accepts the string with a
single trailing newline (if any) removed; this function removes it. -/
def stripFinalNewline (l : List Char) : List Char :=
  if l.getLast? = some '\n' then l.dropLast else l

/-- The strict core of `PLUGIN_NAME_PATTERN` (what `$` would accept at
a true end of input): `[a-z][a-z0-9]*(-[a-z0-9]+)*`. -/
def nameMatchCore : List Char → Bool
  | [] => false
  | c :: cs => isLowerAlpha c && nameTail cs

/-- Source `PLUGIN_NAME_PATTERN.match`: the anchored regex
`^[a-z][a-z0-9]*(-[a-z0-9]+)*$`, with `$` also accepting a position
just before one trailing newline (Python semantics; verified against
CPython, e.g. the pattern accepts `"my-plugin\n"` but not
`"my-plugin\n\n"`). -/
def pluginNamePatternMatch (s : String) : Bool :=
  nameMatchCore (stripFinalNewline s.data)

/-- Character class `[a-zA-Z0-9.]` used by the pre-release and build
fragments of `SEMVER_PATTERN`. -/
def isSemverIdentChar (c : Char) : Bool :=
  isLowerAlpha c || isUpperAlpha c || isDigitChar c || c == '.'

/-- Consume `\d+` (at least one digit, greedily); `none` when the input
does not start with a digit. -/
def chompDigits : List Char → Option (List Char)
  | [] => none
  | c :: cs => if isDigitChar c then some (cs.dropWhile isDigitChar) else none

/-- The build fragment `[a-zA-Z0-9.]+$` after a `+`. -/
def semverBuild (l : List Char) : Bool :=
  match l with
  | c :: cs => isSemverIdentChar c && (cs.dropWhile isSemverIdentChar).isEmpty
  | [] => false

/-- The optional suffixes `(-[a-zA-Z0-9.]+)?(\+[a-zA-Z0-9.]+)?$` of
`SEMVER_PATTERN` (deterministic: `+` is not in the pre-release class). -/
def semverTail : List Char → Bool
  | [] => true
  | '-' :: rest =>
    match rest with
    | [] => false
    | c :: cs =>
      if isSemverIdentChar c then
        match cs.dropWhile isSemverIdentChar with
        | [] => true
        | '+' :: b => semverBuild b
        | _ => false
      else false
  | '+' :: rest => semverBuild rest
  | _ => false

/-- The strict core of `SEMVER_PATTERN` (what `$` would accept at a
true end of input). -/
def semverMatchCore (l : List Char) : Bool :=
  match chompDigits l with
  | none => false
  | some l1 =>
    match l1 with
    | '.' :: l2 =>
      match chompDigits l2 with
      | none => false
      | some l3 =>
        match l3 with
        | '.' :: l4 =>
          match chompDigits l4 with
          | none => false
          | some l5 => semverTail l5
        | _ => false
    | _ => false

/-- Source `SEMVER_PATTERN.match`: the anchored regex
`^\d+\.\d+\.\d+(-[a-zA-Z0-9.]+)?(\+[a-zA-Z0-9.]+)?$`, with `$` also
accepting a position just before one trailing newline (Python
semantics; verified against CPython, e.g. the pattern accepts
`"1.2.3\n"` but not `"1.2.3\n\n"`). -/
def semverPatternMatch (s : String) : Bool :=
  semverMatchCore (stripFinalNewline s.data)

/-- The `SPDX_LICENSES` set. -/
def SPDX_LICENSES : List String :=
  ["MIT", "Apache-2.0", "BSD-2-Clause", "BSD-3-Clause",
   "ISC", "GPL-3.0", "LGPL-3.0", "MPL-2.0"]

/-- Source `", ".join(sorted(SPDX_LICENSES))`. -/
def spdxSortedJoined : String :=
  "Apache-2.0, BSD-2-Clause, BSD-3-Clause, GPL-3.0, ISC, LGPL-3.0, MIT, MPL-2.0"

/-! ### Plugin manifest model (`PluginJsonValidator`) -/

/-- The fields of a parsed `plugin.json` that the validator inspects.
`none` means the key is absent; `some .null` means the key holds JSON
`null` (Python distinguishes them via `in`). -/
structure ManifestData where
  name : Option JVal
  version : Option JVal
  author : Option JVal
  license : Option JVal
  repository : Option JVal
  keywords : Option JVal
  commands : Option JVal
  agents : Option JVal
  skills : Option JVal
deriving DecidableEq, Repr

/-- On-disk state of a `plugin.json` as observed by the validator:
absent, present but `json.load` raises `JSONDecodeError` (with the
parser's message and line number), present but some other exception is
raised while reading, or parsed successfully. -/
inductive ManifestFile where
  | missing
  | badJson (msg : String) (lineno : Nat)
  | readFailure (msg : String)
  | parsed (data : ManifestData)
deriving DecidableEq, Repr

/-- Source `plugin_path / '.claude-plugin' / 'plugin.json'`. -/
def pluginJsonPathOf (pluginPath : String) : String :=
  pluginPath ++ "/.claude-plugin/plugin.json"

/-- Source `PluginJsonValidator._validate_name`. -/
def validate_name (jp : String) (name : JVal) (result : ValidationResult) :
    ValidationResult :=
  match name with
  | .str s =>
    if pluginNamePatternMatch s then result
    else
      result.add_error "name_format"
        ("Plugin name \"" ++ s ++ "\" must be kebab-case, lowercase, no spaces")
        jp none
  | v =>
    result.add_error "name_type"
      ("Plugin name must be string, got " ++ pyTypeName v) jp none

/-- Source `PluginJsonValidator._validate_version`. -/
def validate_version (jp : String) (version : JVal) (result : ValidationResult) :
    ValidationResult :=
  match version with
  | .str s =>
    if semverPatternMatch s then result
    else
      result.add_error "version_format"
        ("Version \"" ++ s ++
          "\" must follow semantic versioning (MAJOR.MINOR.PATCH)") jp none
  | v =>
    result.add_error "version_type"
      ("Version must be string, got " ++ pyTypeName v) jp none

/-- Source `PluginJsonValidator._validate_author`. -/
def validate_author (jp : String) (author : JVal) (result : ValidationResult) :
    ValidationResult :=
  match author with
  | .str s =>
    let result := result.add_error "author_format"
      ("Author must be object with \"name\" field, not string. Found: \"" ++
        s ++ "\"") jp none
    result.add_info "author_fix"
      ("Change to: \x7b\"name\": \"" ++ s ++ "\"\x7d") jp
  | .obj fields =>
    if fields.any (fun kv => kv.1 == "name") then result
    else
      result.add_error "author_name" "Author object must have \"name\" field"
        jp none
  | v =>
    result.add_error "author_type"
      ("Author must be object, got " ++ pyTypeName v) jp none

/-- Source `PluginJsonValidator._validate_license`. -/
def validate_license (jp : String) (license : JVal) (result : ValidationResult) :
    ValidationResult :=
  match license with
  | .str s =>
    if SPDX_LICENSES.contains s then result
    else
      result.add_warning "license_spdx"
        ("License \"" ++ s ++ "\" not in common SPDX list. Consider: " ++
          spdxSortedJoined) jp none
  | v =>
    result.add_error "license_type"
      ("License must be string, got " ++ pyTypeName v) jp none

/-- Source `PluginJsonValidator._validate_repository`. -/
def validate_repository (jp : String) (repository : JVal)
    (result : ValidationResult) : ValidationResult :=
  match repository with
  | .str s =>
    if pyStartsWith "http://" s || pyStartsWith "https://" s then result
    else
      result.add_warning "repository_url" "Repository should be a valid URL"
        jp none
  | v =>
    result.add_error "repository_type"
      ("Repository must be string, got " ++ pyTypeName v) jp none

/-- The `enumerate(keywords)` loop of
`PluginJsonValidator._validate_keywords`. -/
def keywordsLoop (jp : String) : List JVal → Nat → ValidationResult →
    ValidationResult
  | [], _, r => r
  | k :: ks, i, r =>
    let r := match k with
      | .str _ => r
      | v =>
        r.add_error "keyword_type"
          ("Keyword at index " ++ toString i ++ " must be string, got " ++
            pyTypeName v) jp none
    keywordsLoop jp ks (i + 1) r

/-- Source `PluginJsonValidator._validate_keywords`. -/
def validate_keywords (jp : String) (keywords : JVal)
    (result : ValidationResult) : ValidationResult :=
  match keywords with
  | .arr ks => keywordsLoop jp ks 0 result
  | v =>
    result.add_error "keywords_type"
      ("Keywords must be array, got " ++ pyTypeName v) jp none

/-- The per-value body of the `for path_str in paths` loop of
`PluginJsonValidator._validate_paths`: absolute-path check, `./`-prefix
check, existence check, in source order.  `envExists rel` tells whether
`plugin_path / rel` exists on disk. -/
def checkPathValue (jp fieldName : String) (envExists : String → Bool)
    (p : String) (r : ValidationResult) : ValidationResult :=
  let r :=
    if pyStartsWith "/" p then
      r.add_error (fieldName ++ "_absolute")
        ("Path \"" ++ p ++ "\" must be relative, not absolute") jp none
    else r
  let r :=
    if !(pyStartsWith "./" p) then
      r.add_warning (fieldName ++ "_prefix")
        ("Path \"" ++ p ++ "\" should start with ./ prefix") jp none
    else r
  if !(envExists (pyLstripDotSlash p)) then
    r.add_error (fieldName ++ "_exists")
      ("Path \"" ++ p ++ "\" does not exist") jp none
  else r

/-- The `for path_str in paths` loop (non-string entries are skipped). -/
def pathsLoop (jp fieldName : String) (envExists : String → Bool) :
    List JVal → ValidationResult → ValidationResult
  | [], r => r
  | v :: vs, r =>
    let r := match v with
      | .str p => checkPathValue jp fieldName envExists p r
      | _ => r
    pathsLoop jp fieldName envExists vs r

/-- Source `PluginJsonValidator._validate_paths`: a bare string is wrapped into
a one-element list; anything else non-list is a type error. -/
def validate_paths (jp fieldName : String) (envExists : String → Bool)
    (paths : JVal) (result : ValidationResult) : ValidationResult :=
  match paths with
  | .str s => pathsLoop jp fieldName envExists [.str s] result
  | .arr vs => pathsLoop jp fieldName envExists vs result
  | v =>
    result.add_error (fieldName ++ "_type")
      (fieldName ++ " must be string or array, got " ++ pyTypeName v) jp none

/-- Source `PluginJsonValidator.validate`: early returns for a missing,
unparsable or unreadable document, otherwise all field checks in source
order. -/
def pluginJsonValidate (pluginPath : String) (file : ManifestFile)
    (envExists : String → Bool) : ValidationResult :=
  let jp := pluginJsonPathOf pluginPath
  match file with
  | .missing => freshResult.add_error "file_exists" "plugin.json not found" jp none
  | .badJson msg lineno =>
    freshResult.add_error "json_syntax" ("Invalid JSON: " ++ msg) jp (some lineno)
  | .readFailure msg =>
    freshResult.add_error "file_read" ("Failed to read file: " ++ msg) jp none
  | .parsed data =>
    let result := freshResult
    let result := match data.name with
      | none =>
        result.add_error "required_field" "Missing required field: name" jp none
      | some n => validate_name jp n result
    let result := match data.version with
      | some v => validate_version jp v result
      | none => result
    let result := match data.author with
      | some a => validate_author jp a result
      | none => result
    let result := match data.license with
      | some l => validate_license jp l result
      | none => result
    let result := match data.repository with
      | some v => validate_repository jp v result
      | none => result
    let result := match data.keywords with
      | some k => validate_keywords jp k result
      | none => result
    let result := match data.commands with
      | some p => validate_paths jp "commands" envExists p result
      | none => result
    let result := match data.agents with
      | some p => validate_paths jp "agents" envExists p result
      | none => result
    match data.skills with
      | some p => validate_paths jp "skills" envExists p result
      | none => result

/-! ### Registry (marketplace) validator: `MarketplaceValidator._validate_plugin_entry` -/

/-- The fields of one entry of the registry's `plugins` array that the
validator inspects (`none` = key absent, `some .null` = JSON null). -/
structure RegEntry where
  name : Option JVal
  version : Option JVal
  author : Option JVal
  source : Option JVal
deriving DecidableEq, Repr

/-- What dereferencing a registry entry's `source` observes on disk:
the source path is missing, the path exists but holds no
`.claude-plugin/plugin.json`, reading/parsing that file raises some
exception (the code catches every exception alike), or it parses and
yields the manifest's `name`/`version` fields. -/
inductive ManifestLoad where
  | srcMissing
  | pluginJsonMissing
  | readFail (msg : String)
  | loaded (name : Option JVal) (version : Option JVal)
deriving DecidableEq, Repr

/-- Source `plugin_names.add(name)` on the Python set, modelled as a list
without duplicates. -/
def insertSeen (n : JVal) (seen : List JVal) : List JVal :=
  if n ∈ seen then seen else n :: seen

/-- The cross-reference consistency block of
`MarketplaceValidator._validate_plugin_entry` (the body of its `try`
after a successful `json.load`): name mismatch, version mismatch,
author-format checks, in source order.  `pname`/`pver` are
`plugin_data.get('name')` / the manifest's `version`; Python's `get`
returns `None` when the key is absent, hence the `.getD .null`. -/
def crossref_consistency (mkJson : String) (name : JVal)
    (entryVersion entryAuthor : Option JVal) (pname pver : Option JVal)
    (r : ValidationResult) : ValidationResult :=
  let r :=
    if pname.getD .null ≠ name then
      r.add_error "name_mismatch"
        ("Plugin name mismatch: marketplace says \"" ++ pyStr name ++
          "\", plugin.json says \"" ++ pyStr (pname.getD .null) ++ "\"")
        mkJson none
    else r
  let r :=
    match entryVersion, pver with
    | some ev, some pv =>
      if ev ≠ pv then
        r.add_error "version_mismatch"
          ("Plugin \"" ++ pyStr name ++ "\" version mismatch: marketplace=" ++
            pyStr ev ++ ", plugin.json=" ++ pyStr pv) mkJson none
      else r
    | _, _ => r
  match entryAuthor with
  | some (.str _) =>
    r.add_error "author_format_marketplace"
      ("Plugin \"" ++ pyStr name ++
        "\" author in marketplace.json must be object, not string") mkJson none
  | _ => r

/-- Source `MarketplaceValidator._validate_plugin_entry`: required-field,
duplicate, source and cross-reference checks for one entry, updating the
shared result and the set of names seen so far.  `load` is applied to
`source.lstrip('./')` and reports what the filesystem/parse observed. -/
def validate_plugin_entry (mkJson : String) (load : String → ManifestLoad)
    (entry : RegEntry) (index : Nat) (seen : List JVal)
    (r : ValidationResult) : ValidationResult × List JVal :=
  match entry.name with
  | none =>
    (r.add_error "plugin_name_missing"
      ("Plugin at index " ++ toString index ++ " missing \"name\" field")
      mkJson none, seen)
  | some name =>
    let r :=
      if name ∈ seen then
        r.add_error "duplicate_plugin"
          ("Duplicate plugin name: \"" ++ pyStr name ++ "\"") mkJson none
      else r
    let seen := insertSeen name seen
    match entry.source with
    | none =>
      (r.add_error "plugin_source_missing"
        ("Plugin \"" ++ pyStr name ++ "\" missing \"source\" field")
        mkJson none, seen)
    | some (.str src) =>
      match load (pyLstripDotSlash src) with
      | .srcMissing =>
        (r.add_error "source_path_missing"
          ("Plugin \"" ++ pyStr name ++ "\" source path does not exist: " ++ src)
          mkJson none, seen)
      | .pluginJsonMissing =>
        (r.add_error "plugin_json_missing"
          ("Plugin \"" ++ pyStr name ++
            "\" missing .claude-plugin/plugin.json at " ++ src) mkJson none,
         seen)
      | .readFail msg =>
        (r.add_warning "plugin_json_read"
          ("Could not read plugin.json for \"" ++ pyStr name ++ "\": " ++ msg)
          mkJson none, seen)
      | .loaded pname pver =>
        (crossref_consistency mkJson name entry.version entry.author pname pver r,
         seen)
    | some _ =>
      (r.add_error "source_type"
        ("Plugin \"" ++ pyStr name ++ "\" source must be string") mkJson none,
       seen)

/-- The `for i, plugin_entry in enumerate(data['plugins'])` loop of
`MarketplaceValidator.validate` (which starts it with an empty
`plugin_names` set). -/
def validatePluginsLoop (mkJson : String) (load : String → ManifestLoad) :
    List RegEntry → Nat → List JVal → ValidationResult →
    ValidationResult × List JVal
  | [], _, seen, r => (r, seen)
  | e :: es, i, seen, r =>
    let p := validate_plugin_entry mkJson load e i seen r
    validatePluginsLoop mkJson load es (i + 1) p.2 p.1

/-! ### Skills delegate (`SkillsValidator.validate_skill`) -/

/-- Outcome of launching the external `skills-ref` inspector (`uvx ...
skills-ref validate <path>` with `timeout=30`): the process completed
with an exit status and captured output streams, the 30-second timeout
elapsed (`subprocess.TimeoutExpired`), the executable was absent
(`FileNotFoundError`), or some other launch failure occurred. -/
inductive SkillRunOutcome where
  | completed (returncode : Int) (stdout stderr : String)
  | timedOut
  | executableNotFound
  | launchError (msg : String)
deriving DecidableEq, Repr

/-- Source `SkillsValidator.validate_skill`: marker-file check, then mapping of
the inspector outcome to at most one error. -/
def validate_skill (skillPath : String) (skillMdExists : Bool)
    (outcome : SkillRunOutcome) : ValidationResult :=
  if !skillMdExists then
    freshResult.add_error "skill_md_missing" "SKILL.md file not found"
      skillPath none
  else
    match outcome with
    | .completed rc out err =>
      if rc ≠ 0 then
        freshResult.add_error "skills_ref_validation"
          ("skills-ref validation failed:\n" ++ out ++ "\n" ++ err)
          skillPath none
      else freshResult
    | .timedOut =>
      freshResult.add_error "skills_ref_timeout"
        "skills-ref validation timed out (30s)" skillPath none
    | .executableNotFound =>
      freshResult.add_error "skills_ref_missing"
        "uvx not found. Install with: curl -LsSf https://astral.sh/uv/install.sh | sh"
        skillPath none
    | .launchError msg =>
      freshResult.add_error "skills_ref_error"
        ("Failed to run skills-ref: " ++ msg) skillPath none

/-! ### Aggregator: machine-readable report and exit status -/

/-- One issue as serialized by `print_json_results` (check, message,
file, line; the severity is implied by which list it sits in). -/
structure IssueDict where
  check : String
  message : String
  file : String
  line : Option Nat
deriving DecidableEq, Repr

/-- Serialization of one issue. -/
def issueToDict (i : ValidationIssue) : IssueDict :=
  ⟨i.check, i.message, i.file, i.line⟩

/-- Source `_result_to_dict`: status plus the error and warning lists.  The
`info` list is not serialized. -/
structure ResultDict where
  status : String
  errors : List IssueDict
  warnings : List IssueDict
deriving DecidableEq, Repr

/-- Source `_result_to_dict`. -/
def result_to_dict (r : ValidationResult) : ResultDict :=
  ⟨r.status, r.errors.map issueToDict, r.warnings.map issueToDict⟩

/-- The `summary` object of the JSON report. -/
structure SummaryDict where
  total_plugins : Nat
  plugins_passed : Nat
  plugins_warnings : Nat
  plugins_failed : Nat
  total_skills : Nat
  skills_passed : Nat
  skills_failed : Nat
deriving DecidableEq, Repr

/-- The whole JSON document produced by `print_json_results`. -/
structure JsonOutput where
  root_plugin : Option ResultDict
  marketplace : Option ResultDict
  plugins : List (String × ResultDict)
  skills : List (String × ResultDict)
  summary : SummaryDict
deriving DecidableEq, Repr

/-- Source `print_json_results`: serialize every Result and compute the
summary counters exactly as the source does (note `skills_failed`
counts statuses in `["warning", "failed"]`). -/
def print_json_results (root mk : Option ValidationResult)
    (plugins skills : List (String × ValidationResult)) : JsonOutput :=
  ⟨root.map result_to_dict,
   mk.map result_to_dict,
   plugins.map (fun p => (p.1, result_to_dict p.2)),
   skills.map (fun p => (p.1, result_to_dict p.2)),
   ⟨plugins.length,
    (plugins.filter (fun p => p.2.status == "passed")).length,
    (plugins.filter (fun p => p.2.status == "warning")).length,
    (plugins.filter (fun p => p.2.status == "failed")).length,
    skills.length,
    (skills.filter (fun p => p.2.status == "passed")).length,
    (skills.filter (fun p => p.2.status == "warning"
      || p.2.status == "failed")).length⟩⟩

/-- The `has_errors` expression at the end of `main`. -/
def has_errors (root mk : Option ValidationResult)
    (plugins skills : List (String × ValidationResult)) : Bool :=
  (match root with
   | some r => r.status == "failed"
   | none => false)
  || (match mk with
      | some r => r.status == "failed"
      | none => false)
  || plugins.any (fun p => p.2.status == "failed")
  || skills.any (fun p => p.2.status == "failed")

/-- Source `sys.exit(1 if has_errors else 0)`. -/
def mainExitCode (root mk : Option ValidationResult)
    (plugins skills : List (String × ValidationResult)) : Nat :=
  if has_errors root mk plugins skills then 1 else 0

/-- All Results produced in one run, in reporting order. -/
def allResults (root mk : Option ValidationResult)
    (plugins skills : List (String × ValidationResult)) :
    List ValidationResult :=
  root.toList ++ mk.toList ++ plugins.map Prod.snd ++ skills.map Prod.snd

/-! ### Counting issues by check code -/

/-- Number of issues in a list carrying a given check code. -/
def countCheck (l : List ValidationIssue) (c : String) : Nat :=
  (l.filter (fun i => i.check == c)).length

/-! ### The name pattern, declaratively (C6) -/

/-- The name pattern as the spec words it, on a character list: a
non-empty list of segments, each a non-empty run of lowercase
letters/digits, joined by single hyphens, the whole starting with a
letter. -/
def NamePatternSpecL (l : List Char) : Prop :=
  ∃ segs : List (List Char),
    segs ≠ [] ∧
    (∀ sg ∈ segs, sg ≠ [] ∧ ∀ c ∈ sg, isLowerDigit c = true) ∧
    (∃ c cs, segs.head? = some (c :: cs) ∧ isLowerAlpha c = true) ∧
    l = List.intercalate ['-'] segs

/-- The name pattern as the spec words it, on a string. -/
def NamePatternSpec (s : String) : Prop :=
  NamePatternSpecL s.data

/-! ### Path-bearing field checks (C5) -/

/-- Stripping a leading `"./"` the way the spec's words describe it:
remove leading occurrences of the two-character prefix `"./"`.  This is
the claim's reading, to be compared with the source's `lstrip('./')`
(`pyLstripDotSlash`), which removes every leading `'.'` or `'/'`
character individually. -/
def stripDotSlashRepeatedly : List Char → List Char
  | '.' :: '/' :: rest => stripDotSlashRepeatedly rest
  | l => l

/-- String version of `stripDotSlashRepeatedly`. -/
def stripLeadingDotSlashSpec (s : String) : String :=
  String.mk (stripDotSlashRepeatedly s.data)

/-! ### Theorems -/

theorem statusInv_fresh : StatusInv freshResult := by
  constructor
  · simp [freshResult]
  constructor
  · simp [freshResult]
  · simp [freshResult]

theorem statusInv_cases {r : ValidationResult} (h : StatusInv r) :
    r.status = "passed" ∨ r.status = "warning" ∨ r.status = "failed" := by
  by_cases he : r.errors = []
  · by_cases hw : r.warnings = []
    · exact Or.inl (h.2.2.mpr ⟨he, hw⟩)
    · exact Or.inr (Or.inl (h.2.1.mpr ⟨he, hw⟩))
  · exact Or.inr (Or.inr (h.1.mpr he))

theorem add_error_status (r : ValidationResult) (c m f : String) (l : Option Nat) :
    (r.add_error c m f l).status = "failed" := by
  by_cases h : r.status = "failed" <;> simp [ValidationResult.add_error, h]

theorem add_error_errors (r : ValidationResult) (c m f : String) (l : Option Nat) :
    (r.add_error c m f l).errors = r.errors ++ [⟨"error", c, m, f, l⟩] := rfl

theorem add_error_warnings (r : ValidationResult) (c m f : String) (l : Option Nat) :
    (r.add_error c m f l).warnings = r.warnings := rfl

theorem add_error_info (r : ValidationResult) (c m f : String) (l : Option Nat) :
    (r.add_error c m f l).info = r.info := rfl

theorem add_warning_status (r : ValidationResult) (c m f : String) (l : Option Nat) :
    (r.add_warning c m f l).status
      = if r.status = "passed" then "warning" else r.status := rfl

theorem add_warning_warnings (r : ValidationResult) (c m f : String) (l : Option Nat) :
    (r.add_warning c m f l).warnings = r.warnings ++ [⟨"warning", c, m, f, l⟩] := rfl

theorem add_warning_errors (r : ValidationResult) (c m f : String) (l : Option Nat) :
    (r.add_warning c m f l).errors = r.errors := rfl

theorem add_info_status (r : ValidationResult) (c m f : String) :
    (r.add_info c m f).status = r.status := rfl

theorem add_info_errors (r : ValidationResult) (c m f : String) :
    (r.add_info c m f).errors = r.errors := rfl

theorem add_info_warnings (r : ValidationResult) (c m f : String) :
    (r.add_info c m f).warnings = r.warnings := rfl

theorem statusInv_step {r : ValidationResult} (h : StatusInv r) (op : ResOp) :
    StatusInv (applyOp r op) := by
  rcases op with ⟨c, m, f, l⟩ | ⟨c, m, f, l⟩ | ⟨c, m, f⟩
  · refine ⟨?_, ?_, ?_⟩ <;>
      simp only [applyOp, add_error_status, add_error_errors, add_error_warnings] <;>
      simp
  · rcases statusInv_cases h with hs | hs | hs
    · have he := (h.2.2.mp hs).1
      have hw := (h.2.2.mp hs).2
      refine ⟨?_, ?_, ?_⟩ <;>
        simp only [applyOp, add_warning_status, add_warning_warnings,
          add_warning_errors] <;>
        simp [hs, he, hw]
    · have he := (h.2.1.mp hs).1
      refine ⟨?_, ?_, ?_⟩ <;>
        simp only [applyOp, add_warning_status, add_warning_warnings,
          add_warning_errors] <;>
        simp [hs, he]
    · have he : r.errors ≠ [] := h.1.mp hs
      refine ⟨?_, ?_, ?_⟩ <;>
        simp only [applyOp, add_warning_status, add_warning_warnings,
          add_warning_errors] <;>
        simp [hs, he]
  · refine ⟨h.1, h.2.1, h.2.2⟩

theorem statusInv_runOps {r : ValidationResult} (h : StatusInv r)
    (ops : List ResOp) : StatusInv (runOps r ops) := by
  induction ops generalizing r with
  | nil => exact h
  | cons op ops ih => exact ih (statusInv_step h op)

theorem failed_sticky {r : ValidationResult} (h : r.status = "failed")
    (ops : List ResOp) : (runOps r ops).status = "failed" := by
  induction ops generalizing r with
  | nil => exact h
  | cons op ops ih =>
    apply ih
    rcases op with ⟨c, m, f, l⟩ | ⟨c, m, f, l⟩ | ⟨c, m, f⟩ <;>
      simp [applyOp, ValidationResult.add_error, ValidationResult.add_warning,
        ValidationResult.add_info, h]

/-- C1: every Result reachable by `add_error`/`add_warning`/`add_info` calls
from the fresh `passed` state satisfies: status is `failed` iff an error
issue exists, else `warning` iff a warning issue exists, else `passed`;
moreover `add_error` always forces `failed`, no later operation reverts
`failed`, `add_warning` upgrades exactly `passed` to `warning` and leaves
any other status (in particular `failed`) unchanged, and `add_info` never
changes the status. -/
theorem result_status_invariant_monotone :
    (∀ ops : List ResOp, StatusInv (runOps freshResult ops))
    ∧ (∀ (r : ValidationResult) (c m f : String) (l : Option Nat),
        (r.add_error c m f l).status = "failed")
    ∧ (∀ (r : ValidationResult) (ops : List ResOp),
        r.status = "failed" → (runOps r ops).status = "failed")
    ∧ (∀ (r : ValidationResult) (c m f : String) (l : Option Nat),
        (r.add_warning c m f l).status
          = if r.status = "passed" then "warning" else r.status)
    ∧ (∀ (r : ValidationResult) (c m f : String),
        (r.add_info c m f).status = r.status) :=
  ⟨fun ops => statusInv_runOps statusInv_fresh ops,
   add_error_status,
   fun _ ops h => failed_sticky h ops,
   add_warning_status,
   add_info_status⟩

/-- Witness for C1 at concrete inputs: the invariant after one error and
one warning, and stickiness of `failed` under a later warning. -/
theorem result_status_invariant_monotone_witness :
    StatusInv (runOps freshResult
      [ResOp.err "c" "m" "f" none, ResOp.warn "w" "m" "f" none])
    ∧ (runOps ⟨"failed", [⟨"error", "c", "m", "f", none⟩], [], []⟩
        [ResOp.warn "w" "m" "f" none]).status = "failed" :=
  ⟨result_status_invariant_monotone.1
      [ResOp.err "c" "m" "f" none, ResOp.warn "w" "m" "f" none],
   result_status_invariant_monotone.2.2.1
      ⟨"failed", [⟨"error", "c", "m", "f", none⟩], [], []⟩
      [ResOp.warn "w" "m" "f" none] rfl⟩

theorem countCheck_nil (c : String) : countCheck [] c = 0 := rfl

theorem countCheck_append (l1 l2 : List ValidationIssue) (c : String) :
    countCheck (l1 ++ l2) c = countCheck l1 c + countCheck l2 c := by
  simp [countCheck]

theorem countCheck_singleton (i : ValidationIssue) (c : String) :
    countCheck [i] c = if i.check = c then 1 else 0 := by
  by_cases h : i.check = c <;> simp [countCheck, h]

theorem countCheck_add_error (r : ValidationResult) (c m f : String)
    (l : Option Nat) (c' : String) :
    countCheck (r.add_error c m f l).errors c'
      = countCheck r.errors c' + (if c = c' then 1 else 0) := by
  rw [add_error_errors, countCheck_append, countCheck_singleton]

theorem countCheck_add_error_warnings (r : ValidationResult) (c m f : String)
    (l : Option Nat) (c' : String) :
    countCheck (r.add_error c m f l).warnings c' = countCheck r.warnings c' := by
  rw [add_error_warnings]

theorem countCheck_add_warning (r : ValidationResult) (c m f : String)
    (l : Option Nat) (c' : String) :
    countCheck (r.add_warning c m f l).warnings c'
      = countCheck r.warnings c' + (if c = c' then 1 else 0) := by
  rw [add_warning_warnings, countCheck_append, countCheck_singleton]

theorem countCheck_add_warning_errors (r : ValidationResult) (c m f : String)
    (l : Option Nat) (c' : String) :
    countCheck (r.add_warning c m f l).errors c' = countCheck r.errors c' := by
  rw [add_warning_errors]

/-- Appending distinct suffixes to the same string gives distinct strings. -/
theorem string_append_right_ne (fn : String) {a b : String} (h : a ≠ b) :
    fn ++ a ≠ fn ++ b := by
  intro he
  apply h
  have hd := congrArg String.data he
  rw [String.data_append, String.data_append] at hd
  exact String.ext (List.append_cancel_left hd)

/-- C7: a missing manifest document yields a Result with exactly one
issue, a `file_exists` error, and no further checks run; a manifest that
exists but is not valid JSON yields exactly one `json_syntax` error
carrying the parser's line number, and no further checks run. -/
theorem manifest_missing_or_malformed_early_return :
    (∀ (pluginPath : String) (envExists : String → Bool),
      pluginJsonValidate pluginPath .missing envExists
        = ⟨"failed",
           [⟨"error", "file_exists", "plugin.json not found",
             pluginJsonPathOf pluginPath, none⟩], [], []⟩)
    ∧ (∀ (pluginPath msg : String) (lineno : Nat) (envExists : String → Bool),
      pluginJsonValidate pluginPath (.badJson msg lineno) envExists
        = ⟨"failed",
           [⟨"error", "json_syntax", "Invalid JSON: " ++ msg,
             pluginJsonPathOf pluginPath, some lineno⟩], [], []⟩) := by
  constructor
  · intro pluginPath envExists
    simp [pluginJsonValidate, ValidationResult.add_error, freshResult]
  · intro pluginPath msg lineno envExists
    simp [pluginJsonValidate, ValidationResult.add_error, freshResult]

/-! ### Cross-reference consistency counting lemmas (C3, C4, C10) -/

theorem crossref_count_name_mismatch (mk : String) (name : JVal)
    (ever eauth pname pver : Option JVal) (r : ValidationResult) :
    countCheck (crossref_consistency mk name ever eauth pname pver r).errors
        "name_mismatch"
      = countCheck r.errors "name_mismatch"
        + (if pname.getD .null = name then 0 else 1) := by
  unfold crossref_consistency
  by_cases h1 : pname.getD JVal.null = name
  · rw [if_neg (fun hc => hc h1), if_pos h1]
    repeat' split
    all_goals simp_all [countCheck_add_error]
  · rw [if_pos h1, if_neg h1]
    repeat' split
    all_goals simp_all [countCheck_add_error]

theorem crossref_count_version_mismatch (mk : String) (name : JVal)
    (ever eauth pname pver : Option JVal) (r : ValidationResult) :
    countCheck (crossref_consistency mk name ever eauth pname pver r).errors
        "version_mismatch"
      = countCheck r.errors "version_mismatch"
        + (match ever, pver with
           | some ev, some pv => if ev = pv then 0 else 1
           | _, _ => 0) := by
  unfold crossref_consistency
  by_cases h1 : pname.getD JVal.null = name
  · rw [if_neg (fun hc => hc h1)]
    repeat' split
    all_goals simp_all [countCheck_add_error]
  · rw [if_pos h1]
    repeat' split
    all_goals simp_all [countCheck_add_error]

theorem crossref_count_author_format (mk : String) (name : JVal)
    (ever eauth pname pver : Option JVal) (r : ValidationResult) :
    countCheck (crossref_consistency mk name ever eauth pname pver r).errors
        "author_format_marketplace"
      = countCheck r.errors "author_format_marketplace"
        + (match eauth with
           | some (.str _) => 1
           | _ => 0) := by
  unfold crossref_consistency
  by_cases h1 : pname.getD JVal.null = name
  · rw [if_neg (fun hc => hc h1)]
    repeat' split
    all_goals simp_all [countCheck_add_error]
  · rw [if_pos h1]
    repeat' split
    all_goals simp_all [countCheck_add_error]

/-- Any check code other than the three cross-reference codes is
untouched by the cross-reference block. -/
theorem crossref_count_other (mk : String) (name : JVal)
    (ever eauth pname pver : Option JVal) (r : ValidationResult) (c : String)
    (h1 : c ≠ "name_mismatch") (h2 : c ≠ "version_mismatch")
    (h3 : c ≠ "author_format_marketplace") :
    countCheck (crossref_consistency mk name ever eauth pname pver r).errors c
      = countCheck r.errors c := by
  unfold crossref_consistency
  by_cases hn : pname.getD JVal.null = name
  · rw [if_neg (fun hc => hc hn)]
    repeat' split
    all_goals simp_all [countCheck_add_error, Ne.symm h1, Ne.symm h2, Ne.symm h3]
  · rw [if_pos hn]
    repeat' split
    all_goals simp_all [countCheck_add_error, Ne.symm h1, Ne.symm h2, Ne.symm h3]

theorem mem_insertSeen_self (n : JVal) (seen : List JVal) :
    n ∈ insertSeen n seen := by
  unfold insertSeen
  split
  · assumption
  · exact List.mem_cons_self n seen

/-- The seen-set returned by `_validate_plugin_entry`: the entry's name
is always recorded (even for duplicates), unless the entry has no name. -/
theorem entry_seen (mk : String) (load : String → ManifestLoad) (e : RegEntry)
    (i : Nat) (seen : List JVal) (r : ValidationResult) :
    (validate_plugin_entry mk load e i seen r).2
      = match e.name with
        | none => seen
        | some n => insertSeen n seen := by
  obtain ⟨n0, v0, a0, s0⟩ := e
  rcases n0 with _ | n
  · rfl
  · rcases s0 with _ | sv
    · rfl
    · rcases sv with s | i' | b | _ | xs | fs
      · unfold validate_plugin_entry
        cases hl : load (pyLstripDotSlash s) <;> simp [hl]
      all_goals rfl

/-- How many `duplicate_plugin` errors one entry adds: exactly one when
its name was already seen, none otherwise. -/
theorem entry_dup_count (mk : String) (load : String → ManifestLoad)
    (e : RegEntry) (i : Nat) (seen : List JVal) (r : ValidationResult) :
    countCheck (validate_plugin_entry mk load e i seen r).1.errors
        "duplicate_plugin"
      = countCheck r.errors "duplicate_plugin"
        + (match e.name with
           | none => 0
           | some n => if n ∈ seen then 1 else 0) := by
  obtain ⟨n0, v0, a0, s0⟩ := e
  rcases n0 with _ | n
  · simp [validate_plugin_entry, countCheck_add_error]
  · unfold validate_plugin_entry
    by_cases hdup : n ∈ seen <;>
      rcases s0 with _ | sv
    · simp [hdup, countCheck_add_error]
    · rcases sv with s | i' | b | _ | xs | fs
      · cases hl : load (pyLstripDotSlash s) with
        | loaded pname pver =>
          simp [hl, hdup, countCheck_add_error,
            crossref_count_other mk n v0 a0 pname pver _ "duplicate_plugin"
              (by decide) (by decide) (by decide)]
        | srcMissing => simp [hl, hdup, countCheck_add_error, countCheck_add_warning_errors]
        | pluginJsonMissing => simp [hl, hdup, countCheck_add_error, countCheck_add_warning_errors]
        | readFail msg => simp [hl, hdup, countCheck_add_error, countCheck_add_warning_errors]
      all_goals simp [hdup, countCheck_add_error]
    · simp [hdup, countCheck_add_error]
    · rcases sv with s | i' | b | _ | xs | fs
      · cases hl : load (pyLstripDotSlash s) with
        | loaded pname pver =>
          simp [hl, hdup, countCheck_add_error,
            crossref_count_other mk n v0 a0 pname pver _ "duplicate_plugin"
              (by decide) (by decide) (by decide)]
        | srcMissing => simp [hl, hdup, countCheck_add_error, countCheck_add_warning_errors]
        | pluginJsonMissing => simp [hl, hdup, countCheck_add_error, countCheck_add_warning_errors]
        | readFail msg => simp [hl, hdup, countCheck_add_error, countCheck_add_warning_errors]
      all_goals simp [hdup, countCheck_add_error]

/-- A duplicate entry is processed exactly as a fresh one would be after
first recording the single `duplicate_plugin` error: the remaining
checks are not suppressed. -/
theorem entry_dup_rest (mk : String) (load : String → ManifestLoad)
    (e : RegEntry) (i : Nat) (seen : List JVal) (r : ValidationResult)
    (n : JVal) (hname : e.name = some n) (hdup : n ∈ seen) :
    validate_plugin_entry mk load e i seen r
      = ((validate_plugin_entry mk load e i []
          (r.add_error "duplicate_plugin"
            ("Duplicate plugin name: \"" ++ pyStr n ++ "\"") mk none)).1,
         insertSeen n seen) := by
  obtain ⟨n0, v0, a0, s0⟩ := e
  simp only at hname
  subst hname
  unfold validate_plugin_entry
  dsimp only
  rw [if_pos hdup, if_neg (List.not_mem_nil n)]
  rcases s0 with _ | sv
  · rfl
  · rcases sv with s | i' | b | _ | xs | fs
    · cases hl : load (pyLstripDotSlash s) <;> simp [hl]
    all_goals rfl

/-- C3: for every registry entry whose source loads to a readable
manifest, the cross-reference block adds a `name_mismatch` error exactly
when the manifest's name (with Python's `get` returning `None` when
absent) differs from the entry's, a `version_mismatch` error exactly
when both declare versions and they differ, and an
`author_format_marketplace` error exactly when the entry's author is a
bare string — each at most once and independently of the others. -/
theorem crossref_entry_checks (mk : String) (load : String → ManifestLoad)
    (entry : RegEntry) (index : Nat) (seen : List JVal) (r : ValidationResult)
    (name : JVal) (src : String) (pname pver : Option JVal)
    (hname : entry.name = some name)
    (hsrc : entry.source = some (.str src))
    (hload : load (pyLstripDotSlash src) = .loaded pname pver) :
    countCheck (validate_plugin_entry mk load entry index seen r).1.errors
        "name_mismatch"
      = countCheck r.errors "name_mismatch"
        + (if pname.getD .null = name then 0 else 1)
    ∧ countCheck (validate_plugin_entry mk load entry index seen r).1.errors
        "version_mismatch"
      = countCheck r.errors "version_mismatch"
        + (match entry.version, pver with
           | some ev, some pv => if ev = pv then 0 else 1
           | _, _ => 0)
    ∧ countCheck (validate_plugin_entry mk load entry index seen r).1.errors
        "author_format_marketplace"
      = countCheck r.errors "author_format_marketplace"
        + (match entry.author with
           | some (.str _) => 1
           | _ => 0) := by
  obtain ⟨n0, v0, a0, s0⟩ := entry
  simp only at hname hsrc
  subst hname
  subst hsrc
  unfold validate_plugin_entry
  simp only [hload]
  by_cases hdup : name ∈ seen <;>
    refine ⟨?_, ?_, ?_⟩ <;>
    simp [hdup, crossref_count_name_mismatch, crossref_count_version_mismatch,
      crossref_count_author_format, countCheck_add_error] <;>
    (try (rcases v0 with _ | ev <;> rcases pver with _ | pv <;> rfl))

/-- Witness for C3: an entry whose manifest agrees on the name, declares
version "1.0.0" against the registry's "2.0.0", and uses a bare-string
author: no name_mismatch, one version_mismatch, one
author_format_marketplace. -/
theorem crossref_entry_checks_witness :
    countCheck ((validate_plugin_entry "mk"
        (fun _ => .loaded (some (.str "p")) (some (.str "1.0.0")))
        ⟨some (.str "p"), some (.str "2.0.0"), some (.str "me"),
          some (.str "./p")⟩ 0 [] freshResult).1.errors) "name_mismatch" = 0
    ∧ countCheck ((validate_plugin_entry "mk"
        (fun _ => .loaded (some (.str "p")) (some (.str "1.0.0")))
        ⟨some (.str "p"), some (.str "2.0.0"), some (.str "me"),
          some (.str "./p")⟩ 0 [] freshResult).1.errors) "version_mismatch" = 1
    ∧ countCheck ((validate_plugin_entry "mk"
        (fun _ => .loaded (some (.str "p")) (some (.str "1.0.0")))
        ⟨some (.str "p"), some (.str "2.0.0"), some (.str "me"),
          some (.str "./p")⟩ 0 [] freshResult).1.errors)
        "author_format_marketplace" = 1 := by
  have h := crossref_entry_checks "mk"
    (fun _ => .loaded (some (.str "p")) (some (.str "1.0.0")))
    ⟨some (.str "p"), some (.str "2.0.0"), some (.str "me"), some (.str "./p")⟩
    0 [] freshResult (.str "p") "./p" (some (.str "p")) (some (.str "1.0.0"))
    rfl rfl rfl
  refine ⟨?_, ?_, ?_⟩
  · rw [h.1]; decide
  · rw [h.2.1]; decide
  · rw [h.2.2]; decide

/-- C4: a registry plugins sequence with exactly two entries sharing a
name produces exactly one `duplicate_plugin` error, none of it from the
first occurrence; the name is still recorded as seen, and a duplicate
entry undergoes exactly the checks a fresh entry would after the single
`duplicate_plugin` error is recorded. -/
theorem duplicate_name_reported_once (mk : String)
    (load : String → ManifestLoad) (e1 e2 : RegEntry) (n : JVal)
    (r : ValidationResult) (h1 : e1.name = some n) (h2 : e2.name = some n) :
    countCheck (validatePluginsLoop mk load [e1, e2] 0 [] r).1.errors
        "duplicate_plugin"
      = countCheck r.errors "duplicate_plugin" + 1
    ∧ countCheck (validate_plugin_entry mk load e1 0 [] r).1.errors
        "duplicate_plugin"
      = countCheck r.errors "duplicate_plugin"
    ∧ n ∈ (validatePluginsLoop mk load [e1, e2] 0 [] r).2
    ∧ (∀ (seen : List JVal) (r' : ValidationResult), n ∈ seen →
        validate_plugin_entry mk load e2 1 seen r'
          = ((validate_plugin_entry mk load e2 1 []
              (r'.add_error "duplicate_plugin"
                ("Duplicate plugin name: \"" ++ pyStr n ++ "\"") mk none)).1,
             insertSeen n seen)) := by
  have hloop : validatePluginsLoop mk load [e1, e2] 0 [] r
      = ((validate_plugin_entry mk load e2 1
            (validate_plugin_entry mk load e1 0 [] r).2
            (validate_plugin_entry mk load e1 0 [] r).1).1,
         (validate_plugin_entry mk load e2 1
            (validate_plugin_entry mk load e1 0 [] r).2
            (validate_plugin_entry mk load e1 0 [] r).1).2) := rfl
  have hseen1 : (validate_plugin_entry mk load e1 0 [] r).2 = insertSeen n [] := by
    rw [entry_seen, h1]
  have hc1 : countCheck (validate_plugin_entry mk load e1 0 [] r).1.errors
      "duplicate_plugin" = countCheck r.errors "duplicate_plugin" := by
    rw [entry_dup_count, h1]
    simp
  refine ⟨?_, hc1, ?_, ?_⟩
  · rw [hloop]
    rw [entry_dup_count, h2, hseen1, hc1]
    simp [insertSeen]
  · rw [hloop]
    rw [entry_seen, h2]
    exact mem_insertSeen_self n _
  · intro seen r' hmem
    exact entry_dup_rest mk load e2 1 seen r' n h2 hmem

/-- Witness for C4 with two concrete entries named "dup". -/
theorem duplicate_name_reported_once_witness :
    countCheck ((validatePluginsLoop "mk" (fun _ => .srcMissing)
        [⟨some (.str "dup"), none, none, some (.str "./a")⟩,
         ⟨some (.str "dup"), none, none, some (.str "./b")⟩]
        0 [] freshResult).1.errors) "duplicate_plugin" = 1
    ∧ JVal.str "dup" ∈ (validatePluginsLoop "mk" (fun _ => .srcMissing)
        [⟨some (.str "dup"), none, none, some (.str "./a")⟩,
         ⟨some (.str "dup"), none, none, some (.str "./b")⟩]
        0 [] freshResult).2 := by
  have h := duplicate_name_reported_once "mk" (fun _ => .srcMissing)
    ⟨some (.str "dup"), none, none, some (.str "./a")⟩
    ⟨some (.str "dup"), none, none, some (.str "./b")⟩
    (.str "dup") freshResult rfl rfl
  refine ⟨?_, h.2.2.1⟩
  rw [h.1]
  decide

/-- C10: when a registry entry's manifest exists but reading/parsing it
raises, the registry Result gets only a `plugin_json_read` warning — no
error, and a non-failed status stays non-failed — while the same
manifest validated directly by the manifest validator yields a failed
Result with a `json_syntax` error. -/
theorem unreadable_manifest_warning_only (mk : String)
    (load : String → ManifestLoad) (e : RegEntry) (i : Nat)
    (seen : List JVal) (r : ValidationResult) (n : JVal) (src msg : String)
    (hname : e.name = some n) (hnd : n ∉ seen)
    (hsrc : e.source = some (.str src))
    (hload : load (pyLstripDotSlash src) = .readFail msg) :
    (validate_plugin_entry mk load e i seen r).1.errors = r.errors
    ∧ (validate_plugin_entry mk load e i seen r).1.warnings
      = r.warnings ++ [⟨"warning", "plugin_json_read",
          "Could not read plugin.json for \"" ++ pyStr n ++ "\": " ++ msg,
          mk, none⟩]
    ∧ (validate_plugin_entry mk load e i seen r).1.status
      = (if r.status = "passed" then "warning" else r.status)
    ∧ (∀ (pluginPath jmsg : String) (jline : Nat) (env : String → Bool),
        (pluginJsonValidate pluginPath (.badJson jmsg jline) env).status
          = "failed"
        ∧ countCheck (pluginJsonValidate pluginPath (.badJson jmsg jline)
            env).errors "json_syntax" = 1) := by
  obtain ⟨n0, v0, a0, s0⟩ := e
  simp only at hname hsrc
  subst hname
  subst hsrc
  unfold validate_plugin_entry
  dsimp only
  rw [if_neg hnd, hload]
  refine ⟨rfl, rfl, rfl, ?_⟩
  intro pluginPath jmsg jline env
  constructor
  · simp [pluginJsonValidate, ValidationResult.add_error, freshResult]
  · rw [show pluginJsonValidate pluginPath (.badJson jmsg jline) env
          = freshResult.add_error "json_syntax" ("Invalid JSON: " ++ jmsg)
              (pluginJsonPathOf pluginPath) (some jline) from rfl,
        countCheck_add_error]
    simp [freshResult, countCheck]

/-- Witness for C10 at a concrete entry and load environment. -/
theorem unreadable_manifest_warning_only_witness :
    (validate_plugin_entry "mk" (fun _ => .readFail "boom")
        ⟨some (.str "p"), none, none, some (.str "./p")⟩ 0 [] freshResult).1.errors
      = freshResult.errors
    ∧ (validate_plugin_entry "mk" (fun _ => .readFail "boom")
        ⟨some (.str "p"), none, none, some (.str "./p")⟩ 0 []
        freshResult).1.status
      = (if freshResult.status = "passed" then "warning" else freshResult.status)
    ∧ (pluginJsonValidate "pp" (.badJson "oops" 3) (fun _ => true)).status
      = "failed" := by
  have h := unreadable_manifest_warning_only "mk" (fun _ => .readFail "boom")
    ⟨some (.str "p"), none, none, some (.str "./p")⟩ 0 [] freshResult
    (.str "p") "./p" "boom" rfl (by simp) rfl rfl
  exact ⟨h.1, h.2.2.1, (h.2.2.2 "pp" "oops" 3 (fun _ => true)).1⟩

theorem intercalate_dash_cons (a : List Char) (rest : List (List Char)) :
    List.intercalate ['-'] (a :: rest)
      = a ++ (rest.map (fun sg => '-' :: sg)).flatten := by
  induction rest generalizing a with
  | nil => simp [List.intercalate]
  | cons b bs ih =>
    have h1 : List.intercalate ['-'] (a :: b :: bs)
        = a ++ '-' :: List.intercalate ['-'] (b :: bs) := by
      simp [List.intercalate, List.intersperse_cons_cons]
    rw [h1, ih b]
    simp

theorem nameTail_cons (c : Char) (cs : List Char) :
    nameTail (c :: cs)
      = if isLowerDigit c then nameTail cs
        else if c == '-' then
          match cs with
          | [] => false
          | d :: ds => isLowerDigit d && nameTail ds
        else false := by
  rw [nameTail.eq_def]

theorem nameMatchCore_cons (c : Char) (cs : List Char) :
    nameMatchCore (c :: cs) = (isLowerAlpha c && nameTail cs) := rfl

theorem nameTail_sound : ∀ l : List Char, nameTail l = true →
    ∃ (s0 : List Char) (segs : List (List Char)),
      l = s0 ++ (segs.map (fun sg => '-' :: sg)).flatten ∧
      (∀ c ∈ s0, isLowerDigit c = true) ∧
      (∀ sg ∈ segs, sg ≠ [] ∧ ∀ c ∈ sg, isLowerDigit c = true)
  | [], _ => ⟨[], [], by simp, by simp, by simp⟩
  | c :: cs, h => by
    by_cases hc : isLowerDigit c = true
    · have h' : nameTail cs = true := by
        rw [nameTail_cons, if_pos hc] at h
        exact h
      obtain ⟨s0, segs, h1, h2, h3⟩ := nameTail_sound cs h'
      refine ⟨c :: s0, segs, by simp [h1], ?_, h3⟩
      intro x hx
      rcases List.mem_cons.mp hx with hx | hx
      · exact hx ▸ hc
      · exact h2 x hx
    · rw [nameTail_cons, if_neg hc] at h
      by_cases hd : (c == '-') = true
      · rw [if_pos hd] at h
        match cs, h with
        | [], h => exact absurd h (by simp)
        | d :: ds, h =>
          have hdl : isLowerDigit d = true := (Bool.and_eq_true _ _ |>.mp h).1
          have hds : nameTail ds = true := (Bool.and_eq_true _ _ |>.mp h).2
          obtain ⟨s0, segs, h1, h2, h3⟩ := nameTail_sound ds hds
          have hc' : c = '-' := by
            simpa using hd
          refine ⟨[], (d :: s0) :: segs, ?_, by simp, ?_⟩
          · subst hc'
            simp [h1]
          · intro sg hsg
            rcases List.mem_cons.mp hsg with hsg | hsg
            · subst hsg
              refine ⟨by simp, ?_⟩
              intro x hx
              rcases List.mem_cons.mp hx with hx | hx
              · exact hx ▸ hdl
              · exact h2 x hx
            · exact h3 sg hsg
      · rw [if_neg hd] at h
        exact absurd h (by simp)

theorem nameTail_append_alnum (s0 rest : List Char)
    (h0 : ∀ c ∈ s0, isLowerDigit c = true) (h : nameTail rest = true) :
    nameTail (s0 ++ rest) = true := by
  induction s0 with
  | nil => simpa
  | cons c cs ih =>
    have hc := h0 c (by simp)
    rw [List.cons_append, nameTail_cons, if_pos hc]
    exact ih (fun x hx => h0 x (by simp [hx]))

theorem nameTail_flatten (segs : List (List Char))
    (h : ∀ sg ∈ segs, sg ≠ [] ∧ ∀ c ∈ sg, isLowerDigit c = true) :
    nameTail ((segs.map (fun sg => '-' :: sg)).flatten) = true := by
  induction segs with
  | nil => simp [nameTail]
  | cons sg rest ih =>
    obtain ⟨hne, hchars⟩ := h sg (by simp)
    match sg, hne with
    | d :: sg', _ =>
      have hd : isLowerDigit d = true := hchars d (by simp)
      have hdash : isLowerDigit '-' = false := by decide
      have htail := nameTail_append_alnum sg'
        ((rest.map (fun sg => '-' :: sg)).flatten)
        (fun c hc => hchars c (by simp [hc]))
        (ih (fun s hs => h s (by simp [hs])))
      have hstep : (((d :: sg') :: rest).map (fun sg => '-' :: sg)).flatten
          = '-' :: d :: (sg' ++ (rest.map (fun sg => '-' :: sg)).flatten) := by
        simp
      rw [hstep, nameTail_cons]
      simp [hdash, hd, htail]

theorem nameMatchCore_iff (l : List Char) :
    nameMatchCore l = true ↔ NamePatternSpecL l := by
  constructor
  · intro h
    rcases l with _ | ⟨c, cs⟩
    · exact absurd h (by simp [nameMatchCore])
    · rw [nameMatchCore_cons] at h
      have hca : isLowerAlpha c = true := (Bool.and_eq_true _ _ |>.mp h).1
      have hcs : nameTail cs = true := (Bool.and_eq_true _ _ |>.mp h).2
      obtain ⟨s0, segs, h1, h2, h3⟩ := nameTail_sound cs hcs
      refine ⟨(c :: s0) :: segs, by simp, ?_, ⟨c, s0, by simp, hca⟩, ?_⟩
      · intro sg hsg
        rcases List.mem_cons.mp hsg with hsg | hsg
        · subst hsg
          refine ⟨by simp, ?_⟩
          intro x hx
          rcases List.mem_cons.mp hx with hx | hx
          · subst hx
            simp [isLowerDigit, hca]
          · exact h2 x hx
        · exact h3 sg hsg
      · rw [intercalate_dash_cons, h1]
        simp
  · rintro ⟨segs, hne, hsegs, ⟨c, cs0, hhead, hca⟩, hdata⟩
    match segs, hne, hhead with
    | [], hne, _ => exact absurd rfl hne
    | sg0 :: rest, _, hhead =>
      have hsg0 : sg0 = c :: cs0 := by
        simpa using hhead
      subst hsg0
      rw [intercalate_dash_cons] at hdata
      subst hdata
      rw [List.cons_append, nameMatchCore_cons]
      have hcs0 : ∀ x ∈ cs0, isLowerDigit x = true := by
        intro x hx
        exact (hsegs (c :: cs0) (by simp)).2 x (by simp [hx])
      have htail := nameTail_append_alnum cs0
        ((rest.map (fun sg => '-' :: sg)).flatten) hcs0
        (nameTail_flatten rest (fun sg hsg => hsegs sg (by simp [hsg])))
      simp [hca, htail]

theorem pluginNamePatternMatch_iff (s : String) :
    pluginNamePatternMatch s = true
      ↔ NamePatternSpecL (stripFinalNewline s.data) :=
  nameMatchCore_iff (stripFinalNewline s.data)

/-- C6 counterexample: the name check also accepts `"my-plugin\n"` —
Python's `$` matches just before one trailing newline, so
`_validate_name` adds no issue for it — yet that string does not match
the claim's pattern "lowercase letters/digits, segments separated by
single hyphens, must start with a letter".  Hence the check does not
accept EXACTLY the strings matching the pattern. -/
theorem name_accepts_trailing_newline :
    validate_name "jp" (.str "my-plugin\n") freshResult = freshResult
    ∧ ¬ NamePatternSpec "my-plugin\n" := by
  constructor
  · rw [validate_name, if_pos (by decide)]
  · intro h
    have h2 := (nameMatchCore_iff ("my-plugin\n".data)).mpr h
    exact absurd h2 (by decide)

/-- C6 (amended): for string names, `_validate_name` leaves the Result
unchanged exactly when the name, after dropping a single trailing
newline (Python's `$` also matches before one final newline), matches
the pattern "lowercase letters/digits, segments separated by single
hyphens, must start with a letter"; `"my-plugin"`, `"my-plugin2"` and
`"my-plugin\n"` are accepted, `"MyPlugin"`, `"My-Plugin"`,
`"my_plugin"` and `"-lead"` each get a `name_format` error, and a
non-string name gets a `name_type` error instead. -/
theorem name_check_accepts_exactly_pattern :
    (∀ (jp s : String) (r : ValidationResult),
      validate_name jp (.str s) r = r
        ↔ NamePatternSpecL (stripFinalNewline s.data))
    ∧ (∀ (jp : String) (r : ValidationResult),
        validate_name jp (.str "my-plugin") r = r)
    ∧ (∀ (jp : String) (r : ValidationResult),
        validate_name jp (.str "my-plugin2") r = r)
    ∧ (∀ (jp : String) (r : ValidationResult),
        validate_name jp (.str "my-plugin\n") r = r)
    ∧ (∀ (jp : String) (r : ValidationResult) (s : String),
        s = "MyPlugin" ∨ s = "My-Plugin" ∨ s = "my_plugin" ∨ s = "-lead" →
        validate_name jp (.str s) r
          = r.add_error "name_format"
              ("Plugin name \"" ++ s ++
                "\" must be kebab-case, lowercase, no spaces") jp none)
    ∧ (∀ (jp : String) (r : ValidationResult) (v : JVal),
        (∀ s, v ≠ .str s) →
        validate_name jp v r
          = r.add_error "name_type"
              ("Plugin name must be string, got " ++ pyTypeName v) jp none) := by
  refine ⟨?_, ?_, ?_, ?_, ?_, ?_⟩
  · intro jp s r
    rw [← pluginNamePatternMatch_iff]
    constructor
    · intro h
      by_contra hm
      rw [validate_name, if_neg hm] at h
      have := congrArg (fun x => x.errors.length) h
      simp [add_error_errors] at this
    · intro h
      rw [validate_name, if_pos h]
  · intro jp r
    rw [validate_name, if_pos (by decide)]
  · intro jp r
    rw [validate_name, if_pos (by decide)]
  · intro jp r
    rw [validate_name, if_pos (by decide)]
  · rintro jp r s (rfl | rfl | rfl | rfl) <;>
      rw [validate_name, if_neg (by decide)]
  · intro jp r v hv
    match v, hv with
    | .num n, _ => rfl
    | .bool b, _ => rfl
    | .null, _ => rfl
    | .arr xs, _ => rfl
    | .obj fs, _ => rfl
    | .str s, hv => exact absurd rfl (hv s)

/-- C5 (amended): for a string path value, the absolute-path check adds
a `<field>_absolute` error exactly when the value starts with `/`; the
prefix check adds a `<field>_prefix` warning (never an error) exactly
when the value does not start with `./`; the existence check adds a
`<field>_exists` error exactly when the value, after stripping ALL
leading `.` and `/` characters (Python's `lstrip('./')`), does not exist
under the plugin root.  The three checks are independent: each count
depends only on its own condition. -/
theorem path_value_checks (jp fn p : String) (envE : String → Bool)
    (r : ValidationResult) :
    countCheck (validate_paths jp fn envE (.str p) r).errors (fn ++ "_absolute")
        = countCheck r.errors (fn ++ "_absolute")
          + (if pyStartsWith "/" p then 1 else 0)
    ∧ countCheck (validate_paths jp fn envE (.str p) r).warnings (fn ++ "_prefix")
        = countCheck r.warnings (fn ++ "_prefix")
          + (if pyStartsWith "./" p then 0 else 1)
    ∧ countCheck (validate_paths jp fn envE (.str p) r).errors (fn ++ "_prefix")
        = countCheck r.errors (fn ++ "_prefix")
    ∧ countCheck (validate_paths jp fn envE (.str p) r).errors (fn ++ "_exists")
        = countCheck r.errors (fn ++ "_exists")
          + (if envE (pyLstripDotSlash p) then 0 else 1) := by
  have habs_pre : fn ++ "_absolute" ≠ fn ++ "_prefix" :=
    string_append_right_ne fn (by decide)
  have habs_ex : fn ++ "_absolute" ≠ fn ++ "_exists" :=
    string_append_right_ne fn (by decide)
  have hex_abs : fn ++ "_exists" ≠ fn ++ "_absolute" :=
    string_append_right_ne fn (by decide)
  have hex_pre : fn ++ "_exists" ≠ fn ++ "_prefix" :=
    string_append_right_ne fn (by decide)
  have hloop : validate_paths jp fn envE (.str p) r
      = checkPathValue jp fn envE p r := rfl
  rw [hloop]
  unfold checkPathValue
  by_cases h1 : pyStartsWith "/" p = true <;>
    by_cases h2 : pyStartsWith "./" p = true <;>
    by_cases h3 : envE (pyLstripDotSlash p) = true <;>
    simp [h1, h2, h3, countCheck_add_error, countCheck_add_warning,
      countCheck_add_warning_errors, countCheck_add_error_warnings,
      habs_pre, habs_ex, hex_abs, hex_pre]

/-- C5 counterexample: the claim's stripping of "any leading `./`"
diverges from the code's `lstrip('./')`.  For the value `".hidden"` in
an environment where only `"hidden"` exists, the spec-stripped path
`".hidden"` does not exist, so the claim demands an existence error, yet
the code (which checks `"hidden"`) adds no error at all. -/
theorem path_exists_check_charset_counterexample :
    (fun rel => rel == "hidden") (stripLeadingDotSlashSpec ".hidden") = false
    ∧ (validate_paths "jp" "commands" (fun rel => rel == "hidden")
        (.str ".hidden") freshResult).errors = [] := by
  constructor
  · decide
  · decide

/-- C8: with the marker file present, the inspection delegate maps each
inspector outcome to exactly one distinct error: non-zero exit status to
`skills_ref_validation` (message carrying the captured stdout and
stderr), timeout to `skills_ref_timeout`, a missing executable to
`skills_ref_missing` with installation guidance, any other launch
failure to `skills_ref_error`; a zero exit status leaves the Result
passed with no issues. -/
theorem skill_outcome_mapping (sp out errtxt msg : String) (rc : Int) :
    (rc ≠ 0 → validate_skill sp true (.completed rc out errtxt)
        = freshResult.add_error "skills_ref_validation"
            ("skills-ref validation failed:\n" ++ out ++ "\n" ++ errtxt)
            sp none)
    ∧ validate_skill sp true (.completed 0 out errtxt) = freshResult
    ∧ validate_skill sp true .timedOut
      = freshResult.add_error "skills_ref_timeout"
          "skills-ref validation timed out (30s)" sp none
    ∧ validate_skill sp true .executableNotFound
      = freshResult.add_error "skills_ref_missing"
          "uvx not found. Install with: curl -LsSf https://astral.sh/uv/install.sh | sh"
          sp none
    ∧ validate_skill sp true (.launchError msg)
      = freshResult.add_error "skills_ref_error"
          ("Failed to run skills-ref: " ++ msg) sp none := by
  refine ⟨?_, ?_, rfl, rfl, rfl⟩
  · intro h
    simp [validate_skill, h]
  · simp [validate_skill]

/-- Witness for C8 at exit statuses 1 and 0. -/
theorem skill_outcome_mapping_witness :
    validate_skill "sp" true (.completed 1 "o" "e")
      = freshResult.add_error "skills_ref_validation"
          ("skills-ref validation failed:\n" ++ "o" ++ "\n" ++ "e") "sp" none
    ∧ validate_skill "sp" true (.completed 0 "o" "e") = freshResult :=
  ⟨(skill_outcome_mapping "sp" "o" "e" "m" 1).1 (by decide),
   (skill_outcome_mapping "sp" "o" "e" "m" 0).2.1⟩

/-- C2: the process exit status is 1 exactly when some produced Result —
root manifest, registry, a plugin or a skill — has status `failed`, and
0 otherwise; warnings alone never make it non-zero. -/
theorem exit_code_one_iff_any_failed (root mk : Option ValidationResult)
    (plugins skills : List (String × ValidationResult)) :
    (mainExitCode root mk plugins skills = 1
      ↔ ∃ res ∈ allResults root mk plugins skills, res.status = "failed")
    ∧ (mainExitCode root mk plugins skills = 0
      ↔ ¬ ∃ res ∈ allResults root mk plugins skills, res.status = "failed") := by
  have hiff : has_errors root mk plugins skills = true
      ↔ ∃ res ∈ allResults root mk plugins skills, res.status = "failed" := by
    have hm : ∀ (l : List (String × ValidationResult)),
        (List.map Prod.snd l).any (fun res => res.status == "failed")
          = l.any (fun p => p.2.status == "failed") := by
      intro l
      induction l with
      | nil => rfl
      | cons p t ih => simp [ih]
    have hsplit : has_errors root mk plugins skills
        = (allResults root mk plugins skills).any
            (fun res => res.status == "failed") := by
      rcases root with _ | r0 <;> rcases mk with _ | r1 <;>
        simp [has_errors, allResults, List.any_append, hm, Bool.or_assoc]
    rw [hsplit]
    simp [List.any_eq_true]
  constructor
  · rw [← hiff]
    unfold mainExitCode
    by_cases h : has_errors root mk plugins skills <;> simp [h]
  · rw [← hiff]
    unfold mainExitCode
    by_cases h : has_errors root mk plugins skills <;> simp [h]

/-- Partition of subjects by status when every status is one of the
three legal values. -/
theorem filter_status_partition (l : List (String × ValidationResult))
    (h : ∀ p ∈ l, p.2.status = "passed" ∨ p.2.status = "warning"
      ∨ p.2.status = "failed") :
    (l.filter (fun p => p.2.status == "passed")).length
      + (l.filter (fun p => p.2.status == "warning")).length
      + (l.filter (fun p => p.2.status == "failed")).length = l.length := by
  induction l with
  | nil => rfl
  | cons p t ih =>
    have hp := h p (by simp)
    have ht := ih (fun q hq => h q (by simp [hq]))
    rcases hp with hp | hp | hp <;>
      simp [List.filter_cons, hp] <;> omega

/-- The skills counters of the summary: `skills_failed` counts every
skill whose status is not `passed`, and together with `skills_passed`
it exhausts the skills. -/
theorem skills_summary_counts (l : List (String × ValidationResult))
    (h : ∀ p ∈ l, p.2.status = "passed" ∨ p.2.status = "warning"
      ∨ p.2.status = "failed") :
    (l.filter (fun p => p.2.status == "warning"
        || p.2.status == "failed")).length
      = (l.filter (fun p => decide (p.2.status ≠ "passed"))).length
    ∧ (l.filter (fun p => p.2.status == "passed")).length
      + (l.filter (fun p => p.2.status == "warning"
          || p.2.status == "failed")).length = l.length := by
  induction l with
  | nil => exact ⟨rfl, rfl⟩
  | cons p t ih =>
    have hp := h p (by simp)
    obtain ⟨ht1, ht2⟩ := ih (fun q hq => h q (by simp [hq]))
    rcases hp with hp | hp | hp <;>
      refine ⟨?_, ?_⟩ <;>
      simp [List.filter_cons, hp] at ht1 ht2 ⊢ <;> omega

/-- C9 (amended): the JSON report exposes, per subject, its status and
its error and warning issues (check, message, file, line); `info` issues
are not serialized.  The summary counts plugins with status passed,
warning and failed (partitioning the plugins when statuses are legal),
while for skills it counts passed and lumps warning together with
failed into `skills_failed`. -/
theorem json_report_contents (root mk : Option ValidationResult)
    (plugins skills : List (String × ValidationResult)) :
    (print_json_results root mk plugins skills).plugins
      = plugins.map (fun p => (p.1, result_to_dict p.2))
    ∧ (print_json_results root mk plugins skills).skills
      = skills.map (fun p => (p.1, result_to_dict p.2))
    ∧ (print_json_results root mk plugins skills).root_plugin
      = root.map result_to_dict
    ∧ (print_json_results root mk plugins skills).marketplace
      = mk.map result_to_dict
    ∧ (∀ r : ValidationResult,
        (result_to_dict r).status = r.status
        ∧ (result_to_dict r).errors = r.errors.map issueToDict
        ∧ (result_to_dict r).warnings = r.warnings.map issueToDict)
    ∧ ((∀ p ∈ plugins, p.2.status = "passed" ∨ p.2.status = "warning"
          ∨ p.2.status = "failed") →
        (print_json_results root mk plugins skills).summary.plugins_passed
          + (print_json_results root mk plugins skills).summary.plugins_warnings
          + (print_json_results root mk plugins skills).summary.plugins_failed
          = (print_json_results root mk plugins skills).summary.total_plugins)
    ∧ ((∀ p ∈ skills, p.2.status = "passed" ∨ p.2.status = "warning"
          ∨ p.2.status = "failed") →
        (print_json_results root mk plugins skills).summary.skills_failed
          = (skills.filter (fun p => decide (p.2.status ≠ "passed"))).length
        ∧ (print_json_results root mk plugins skills).summary.skills_passed
          + (print_json_results root mk plugins skills).summary.skills_failed
          = (print_json_results root mk plugins skills).summary.total_skills) := by
  refine ⟨rfl, rfl, rfl, rfl, fun r => ⟨rfl, rfl, rfl⟩, ?_, ?_⟩
  · intro h
    exact filter_status_partition plugins h
  · intro h
    exact skills_summary_counts skills h

/-- Witness for C9 at one plugin and one warning-status skill. -/
theorem json_report_contents_witness :
    (print_json_results none none [("a", freshResult)]
        [("s", ⟨"warning", [], [], []⟩)]).plugins
      = [("a", result_to_dict freshResult)]
    ∧ (print_json_results none none [("a", freshResult)]
        [("s", ⟨"warning", [], [], []⟩)]).summary.plugins_passed
        + (print_json_results none none [("a", freshResult)]
            [("s", ⟨"warning", [], [], []⟩)]).summary.plugins_warnings
        + (print_json_results none none [("a", freshResult)]
            [("s", ⟨"warning", [], [], []⟩)]).summary.plugins_failed
      = (print_json_results none none [("a", freshResult)]
          [("s", ⟨"warning", [], [], []⟩)]).summary.total_plugins
    ∧ (print_json_results none none [("a", freshResult)]
        [("s", ⟨"warning", [], [], []⟩)]).summary.skills_failed
      = ([("s", (⟨"warning", [], [], []⟩ : ValidationResult))].filter
          (fun p => decide (p.2.status ≠ "passed"))).length :=
  ⟨(json_report_contents none none [("a", freshResult)]
      [("s", ⟨"warning", [], [], []⟩)]).1,
   (json_report_contents none none [("a", freshResult)]
      [("s", ⟨"warning", [], [], []⟩)]).2.2.2.2.2.1
      (by intro p hp; simp at hp; simp [hp, freshResult]),
   ((json_report_contents none none [("a", freshResult)]
      [("s", ⟨"warning", [], [], []⟩)]).2.2.2.2.2.2
      (by intro p hp; simp at hp; simp [hp])).1⟩

/-- C9 counterexample: the machine-readable report does not expose
`info` issues — two Results differing only in their `info` lists
serialize identically, so no report built from `_result_to_dict` can
exhibit the full issue list including info issues. -/
theorem json_report_drops_info :
    result_to_dict ⟨"passed", [], [], []⟩
      = result_to_dict
          ⟨"passed", [], [], [⟨"info", "author_fix", "m", "f", none⟩]⟩
    ∧ (⟨"passed", [], [], []⟩ : ValidationResult).info
      ≠ (⟨"passed", [], [], [⟨"info", "author_fix", "m", "f", none⟩]⟩
          : ValidationResult).info
    ∧ (print_json_results none none []
        [("s", ⟨"warning", [], [], []⟩)]).summary.skills_failed = 1
    ∧ ([("s", (⟨"warning", [], [], []⟩ : ValidationResult))].filter
        (fun p => p.2.status == "failed")).length = 0 := by
  exact ⟨rfl, by decide, rfl, rfl⟩

/-- Witness for C6: the acceptance iff at `"my-plugin"`, the rejection
equation at `"MyPlugin"`, and the non-string case at `3`. -/
theorem name_check_accepts_exactly_pattern_witness :
    (validate_name "jp" (.str "my-plugin") freshResult = freshResult
      ↔ NamePatternSpecL (stripFinalNewline "my-plugin".data))
    ∧ validate_name "jp" (.str "MyPlugin") freshResult
        = freshResult.add_error "name_format"
            "Plugin name \"MyPlugin\" must be kebab-case, lowercase, no spaces"
            "jp" none
    ∧ validate_name "jp" (.num 3) freshResult
        = freshResult.add_error "name_type"
            "Plugin name must be string, got int" "jp" none :=
  ⟨name_check_accepts_exactly_pattern.1 "jp" "my-plugin" freshResult,
   name_check_accepts_exactly_pattern.2.2.2.2.1 "jp" freshResult "MyPlugin"
     (Or.inl rfl),
   name_check_accepts_exactly_pattern.2.2.2.2.2 "jp" freshResult (.num 3)
     (fun _ h => JVal.noConfusion h)⟩

end Validate
